import Mathlib

/-!
# Verification of the HashDB IDA plugin core (src/hashdb.py)

A shallow embedding of the concurrency/coordination core of the HashDB
plugin: the `Worker` task runner's callback dispatch, the single-flight
request lock around the three pipelines (hash lookup, range scan,
algorithm hunt), the highlighted-value parser, enum member insertion with
value deduplication and name-collision suffixing, and the result
post-processing of the remote queries.

Python exceptions are modelled with an explicit exception type `PyExc` and
`Except`-valued functions; the mutable enum data model of the host (IDA)
is modelled as an explicit member list threaded through the functions;
the request lock is modelled as an explicit boolean/count threaded through
session summaries.
-/

namespace HashDB

/-- The exceptions relevant to the plugin's control flow.
`systemExit` is the exception a STOP signal injects into a blocking
worker thread; `cancelledError`, `timeoutError` and `runtimeError` are
the exceptions the coroutine wrapper treats as expected (cancellation,
`asyncio.wait_for` timeout, and the loop being stopped from outside);
`typeError` models a Python `TypeError` (e.g. an argument-arity mismatch
when a callback is invoked); `hashDBError` models the plugin's own
`HashDBError`; `requestsTimeout` models `requests.Timeout`. -/
inductive PyExc
  | systemExit
  | cancelledError
  | timeoutError
  | runtimeError
  | typeError
  | hashDBError
  | requestsTimeout
deriving DecidableEq, Repr

/-! ## parse_highlighted_value (src/hashdb.py lines 986-1033) -/

/-- The four literal kinds recognised by `parse_highlighted_value`
(the Python code calls this variable `type`). -/
inductive NumKind
  | binary
  | octal
  | decimal
  | hex
deriving DecidableEq, Repr

/-- The per-base valid character sets of `parse_highlighted_value`
(`"01"`, `string.octdigits`, `string.digits`, `string.hexdigits`). -/
def characterSet : NumKind → List Char
  | .binary => ['0', '1']
  | .octal => "01234567".toList
  | .decimal => "0123456789".toList
  | .hex => "0123456789abcdefABCDEF".toList

/-- The numeric bases `parse_highlighted_value` passes to `int(...)`. -/
def kindBase : NumKind → Nat
  | .binary => 2
  | .octal => 8
  | .decimal => 10
  | .hex => 16

/-- Value of one digit character, as `int(s, base)` interprets it.  Only
invoked on characters of the matching `characterSet`. -/
def digitValue (c : Char) : Nat :=
  if '0' ≤ c ∧ c ≤ '9' then c.toNat - '0'.toNat
  else if 'a' ≤ c ∧ c ≤ 'f' then c.toNat - 'a'.toNat + 10
  else if 'A' ≤ c ∧ c ≤ 'F' then c.toNat - 'A'.toNat + 10
  else 0

/-- `int(s, base)` on a string of valid base-`base` digit characters. -/
def intOfDigits (s : List Char) (base : Nat) : Nat :=
  s.foldl (fun acc c => acc * base + digitValue c) 0

/-- The suffix/prefix recognition of `parse_highlighted_value`, on the
identifier's characters: a trailing `h` (`identifier.endswith('h')`, IDA
view) or leading `0x` (`identifier.startswith("0x")`, pseudocode) means
hex, a trailing `o` octal, a trailing `b` binary, otherwise decimal; the
marker is removed (`identifier[:-1]` / `identifier[2:]`). -/
def stripNumKind (identifier : List Char) : List Char × NumKind :=
  if identifier.getLast? = some 'h' then (identifier.dropLast, .hex)
  else if identifier.take 2 = ['0', 'x'] then (identifier.drop 2, .hex)
  else if identifier.getLast? = some 'o' then (identifier.dropLast, .octal)
  else if identifier.getLast? = some 'b' then (identifier.dropLast, .binary)
  else (identifier, .decimal)

/-- Embeds `parse_highlighted_value` (src/hashdb.py lines 986-1033).
The argument is the highlighted text (`none` when nothing is highlighted,
i.e. `get_highlight` returned nothing).  The identifier is truncated at
its first character outside the kind's character set (the `for` loop with
`break`), and `none` is returned if nothing remains; otherwise the
remaining digits are read in the kind's base. -/
def parse_highlighted_value (highlight : Option String) : Option Nat :=
  match highlight with
  | none => none
  | some identifier0 =>
    let sk := stripNumKind identifier0.toList
    let identifier := sk.1.takeWhile (fun c => c ∈ characterSet sk.2)
    if identifier.isEmpty then none
    else some (intOfDigits identifier (kindBase sk.2))

/-! ## The Worker wrappers (src/hashdb.py lines 223-313)

`Worker.__wrapper` runs a blocking target inside
`try/except SystemExit/except Exception/finally`: on normal return the
done callback is invoked with the (normalized) result, a `SystemExit`
(injected by a STOP signal, i.e. cancellation) invokes the error
callback, and any other exception is re-raised out of the thread.

`Worker.__async_wrapper` runs a coroutine target on a private event loop
(wrapped in `asyncio.wait_for` when a timeout is set): normal completion
invokes the done callback, `CancelledError`, `TimeoutError` (timeout
expiry) and `RuntimeError` (the loop stopped by a STOP signal) invoke the
error callback, and any other exception is re-raised.

The target's run is modelled by its outcome `Except PyExc α`: `.ok r` for
a normal return and `.error e` for a raised exception. -/

/-- How many times each completion callback was invoked by a wrapper, and
whether the wrapper re-raised the exception out of the thread. -/
structure WrapperTally where
  doneInvocations : Nat
  errorInvocations : Nat
  propagated : Bool
deriving DecidableEq, Repr

/-- The exceptions `Worker.__wrapper`'s first `except` clause catches. -/
def isExpectedSyncExc : PyExc → Bool
  | .systemExit => true
  | _ => false

/-- The exceptions `Worker.__async_wrapper`'s first `except` clause
catches (`CancelledError, TimeoutError, RuntimeError`). -/
def isExpectedAsyncExc : PyExc → Bool
  | .cancelledError => true
  | .timeoutError => true
  | .runtimeError => true
  | _ => false

/-- Embeds `Worker.__wrapper` (lines 223-255).  `hasDone`/`hasError` are
whether the optional callbacks were set by `Worker.start`. -/
def wrapper_run {α : Type} (hasDone hasError : Bool) (target : Except PyExc α) :
    WrapperTally :=
  match target with
  | .ok _ => ⟨if hasDone then 1 else 0, 0, false⟩
  | .error e =>
    if isExpectedSyncExc e then ⟨0, if hasError then 1 else 0, false⟩
    else ⟨0, 0, true⟩

/-- Embeds `Worker.__async_wrapper` (lines 257-313). -/
def async_wrapper_run {α : Type} (hasDone hasError : Bool) (target : Except PyExc α) :
    WrapperTally :=
  match target with
  | .ok _ => ⟨if hasDone then 1 else 0, 0, false⟩
  | .error e =>
    if isExpectedAsyncExc e then ⟨0, if hasError then 1 else 0, false⟩
    else ⟨0, 0, true⟩

/-! ## Enum member insertion: add_enums (src/hashdb.py lines 914-956)

The host's enumerated-constant sets (IDA's `ida_enum`) are an external
collaborator consumed at an interface boundary; an enum is modelled as
its list of `(name, value)` members, `ida_enum.get_enum_member` as a
lookup by value and `ida_enum.add_enum_member` as an append that reports
`ENUM_MEMBER_ERROR_NAME` when a member with the same name already
exists.  The enum creation/width part of `add_enums`
(`idc.add_enum` / `ida_enum.get_enum` / `ida_enum.set_enum_width`,
which may fail and make `add_enums` return `None`) is modelled by a
boolean `createOk` of the host. -/

/-- One member of an enum: a `(name, value)` pair. -/
structure EnumMember where
  name : String
  value : Nat
deriving DecidableEq, Repr

/-- An enum's members, in insertion order. -/
abbrev EnumMembers := List EnumMember

/-- Models `ida_enum.get_enum_member(enum_id, value, 0, 0)`: the first
member with this value (`none` plays the role of `BADNODE`). -/
def get_enum_member (members : EnumMembers) (value : Nat) : Option EnumMember :=
  members.find? (fun m => m.value == value)

/-- Result of `ida_enum.add_enum_member`: success, a name collision
(`ENUM_MEMBER_ERROR_NAME`), or any other error code. -/
inductive AddMemberResult
  | success (members : EnumMembers)
  | nameError
  | otherError
deriving DecidableEq, Repr

/-- Models `ida_enum.add_enum_member(enum_id, name, value)`: fails with
`ENUM_MEMBER_ERROR_NAME` if a member with this name already exists,
otherwise appends the member. -/
def add_enum_member (members : EnumMembers) (name : String) (value : Nat) :
    AddMemberResult :=
  if members.any (fun m => m.name == name) then .nameError
  else .success (members ++ [⟨name, value⟩])

/-- `MAXIMUM_ATTEMPTS = 256` (src/hashdb.py line 940). -/
def MAXIMUM_ATTEMPTS : Nat := 256

/-- The name tried at attempt `index`:
`member_name if not index else member_name + '_' + str(index)`. -/
def attemptName (member_name : String) (index : Nat) : String :=
  if index = 0 then member_name else member_name ++ "_" ++ toString index

/-- The inner `for index in range(MAXIMUM_ATTEMPTS)` loop of `add_enums`
(lines 947-955), with `fuel` the number of remaining attempts.  On a name
collision the next suffixed name is tried; when the attempts are
exhausted the loop falls through and the member is simply not inserted;
any other `add_enum_member` error makes `add_enums` return `None`. -/
def insertAttempts (members : EnumMembers) (member_name : String) (value : Nat) :
    Nat → Nat → Option EnumMembers
  | 0, _ => some members
  | fuel + 1, index =>
    match add_enum_member members (attemptName member_name index) value with
    | .success ms => some ms
    | .nameError => insertAttempts members member_name value fuel (index + 1)
    | .otherError => none

/-- The member loop of `add_enums` (lines 941-955): pairs whose value is
already present in the enum are skipped (`continue`), otherwise the name
attempts are run. -/
def add_enums_loop (members : EnumMembers) :
    List (String × Nat) → Option EnumMembers
  | [] => some members
  | (member_name, value) :: rest =>
    if (get_enum_member members value).isSome then add_enums_loop members rest
    else
      match insertAttempts members member_name value MAXIMUM_ATTEMPTS 0 with
      | none => none
      | some ms => add_enums_loop ms rest

/-- Embeds `add_enums(enum_name, hash_list)` (lines 914-956) acting on
the named enum's member list.  `createOk` is whether the host could
create or find the enum and set its width (when false `add_enums`
returns `None` before touching any member). -/
def add_enums_host (createOk : Bool) (members : EnumMembers)
    (hash_list : List (String × Nat)) : Option EnumMembers :=
  if createOk then add_enums_loop members hash_list else none

/-! ## Hash match records and get_strings_from_hash (lines 465-484) -/

/-- The `string` sub-object of one hash record returned by the lookup
service.  Missing JSON keys are `none`/defaults (`dict.get`). -/
structure HashString where
  is_api : Option Bool
  str : Option String
  api : Option String
  modules : List String
  permutation : String
deriving DecidableEq, Repr

/-- The `{}` default used by `hash_info.get('string', {})`. -/
def hsDefault : HashString := ⟨none, none, none, [], ""⟩

/-- One element of the `hashes` array of a lookup response
(`hash_info`); only its `string` sub-object is relevant here. -/
structure HashRecord where
  stringObj : Option HashString
deriving DecidableEq, Repr

/-- `str.replace('\x00', '')`: remove every NUL character. -/
def stripNulChars (s : String) : String :=
  ⟨s.toList.filter (fun c => c ≠ '\x00')⟩

/-- The per-record normalization of `get_strings_from_hash` (lines
480-483): when `hash_info.get('string', {}).get('is_api', True)` is
false, NUL characters are removed from `hash_info['string']['string']`
(a record whose `string` object lacks the `string` key would raise a
`KeyError` there, modelled by `none`); all other records are passed
through unmodified. -/
def process_hash_record : HashRecord → Option HashRecord
  | ⟨none⟩ => some ⟨none⟩
  | ⟨some so⟩ =>
    if so.is_api.getD true then some ⟨some so⟩
    else
      match so.str with
      | none => none
      | some s => some ⟨some { so with str := some (stripNulChars s) }⟩

/-- The `out_hashes` loop of `get_strings_from_hash` (lines 479-483):
normalize each record of the response in order. -/
def get_strings_from_hash_post : List HashRecord → Option (List HashRecord)
  | [] => some []
  | rec :: rest =>
    match process_hash_record rec, get_strings_from_hash_post rest with
    | some r, some rs => some (r :: rs)
    | _, _ => none

/-! ## Global configuration (src/hashdb.py lines 83-93)

The module-level mutable settings `HASHDB_API_URL`, `HASHDB_USE_XOR`,
`HASHDB_XOR_VALUE`, `HASHDB_ALGORITHM`, `HASHDB_ALGORITHM_SIZE` and
`ENUM_PREFIX`, bundled as a record.  A pipeline reads some of them when
it launches (passing them to the `Worker` as arguments) and reads others
again, live, when its done callback runs. -/
structure Config where
  api_url : String
  use_xor : Bool
  xor_value : Nat
  algorithm : Option String
  algorithm_size : Nat
  enum_base : String
deriving DecidableEq, Repr

/-- Embeds `generate_enum_name(prefix)` (lines 959-964):
`prefix + '_' + HASHDB_ALGORITHM`, with the current algorithm passed
explicitly. -/
def generate_enum_name (base alg : String) : String :=
  base ++ "_" ++ alg

/-- The display string used as a collision dictionary key (lines
1202-1208 and 1427-1433): the `api` field for API records, the `string`
field otherwise (`is_api` defaulting to `False` here). -/
def collisionKey (so : HashString) : String :=
  if so.is_api.getD false then so.api.getD "" else so.str.getD ""

/-- One `collisions[key] = string_value` step with Python `dict`
semantics: an existing key keeps its position and its value is
overwritten, a new key is appended. -/
def dictInsert (d : List (String × HashString)) (k : String) (v : HashString) :
    List (String × HashString) :=
  if d.any (fun kv => kv.1 == k) then
    d.map (fun kv => if kv.1 == k then (k, v) else kv)
  else d ++ [(k, v)]

/-- The collision dictionary built from a multi-match hash list (lines
1202-1208 / 1427-1433): keyed by display string, in insertion order. -/
def collisionsOf (hashes : List HashRecord) : List (String × HashString) :=
  hashes.foldl (fun d rec =>
    let so := rec.stringObj.getD hsDefault
    dictInsert d (collisionKey so) so) []

/-- The string written for a resolved hash (lines 1225-1233 /
1450-1459): the `api` field for API records, the `string` field
otherwise, with the empty string replaced by `"empty_string"`. -/
def resolve_string_value (hash_string : HashString) : String :=
  let string_value :=
    if hash_string.is_api.getD false then hash_string.api.getD ""
    else hash_string.str.getD ""
  if string_value.length = 0 then "empty_string" else string_value

/-! ## The remote lookup query (lines 465-484) -/

/-- The parameters of one `GET /hash/{algorithm}/{value}` request as
issued by `get_strings_from_hash`: the hash value is XORed with the
caller-supplied mask before it is put in the URL (line 471). -/
structure HashQuery where
  algorithm : String
  value : Nat
  api_url : String
deriving DecidableEq, Repr

/-- The query `get_strings_from_hash(algorithm, hash_value, xor_value,
api_url, ...)` sends. -/
def get_strings_from_hash_query (algorithm : String) (hash_value : Nat)
    (xor_value : Nat) (api_url : String) : HashQuery :=
  ⟨algorithm, hash_value ^^^ xor_value, api_url⟩

/-- Outcome of one `get_strings_from_hash` call as seen by a pipeline
coroutine: either `requests.Timeout` was raised, or the (normalized,
cf. `get_strings_from_hash_post`) `hashes` array of the response. -/
inductive StringsQueryResult
  | timeout
  | response (hashes : List HashRecord)
deriving DecidableEq, Repr

/-! ## Hash lookup pipeline (lines 1185-1394) -/

/-- The arguments captured at launch time and handed to the `Worker`
running `hash_lookup_request` (lines 1367-1369): the endpoint, the
algorithm, the parsed hash value and the XOR mask
(`HASHDB_XOR_VALUE if HASHDB_USE_XOR else None`).  At launch the
algorithm global is always set (otherwise `hash_lookup_run` returned
early), so the `getD` default is never exercised. -/
structure LookupWorkerArgs where
  api_url : String
  algorithm : String
  hash_value : Nat
  xor_value : Option Nat
deriving DecidableEq, Repr

/-- The launch-time snapshot taken by `hash_lookup_run`. -/
def lookup_worker_args (cfg : Config) (hash_value : Nat) : LookupWorkerArgs :=
  ⟨cfg.api_url, cfg.algorithm.getD "", hash_value,
   if cfg.use_xor then some cfg.xor_value else none⟩

/-- The remote query `hash_lookup_request` (lines 1317-1334) performs:
`get_strings_from_hash(algorithm, hash_value, xor_value if xor_value is
not None else 0, api_url, timeout)`. -/
def hash_lookup_request_query (args : LookupWorkerArgs) : HashQuery :=
  get_strings_from_hash_query args.algorithm args.hash_value
    (args.xor_value.getD 0) args.api_url

/-- Embeds the body of `hash_lookup_request`: a timeout or an empty
`hashes` array returns `None`, otherwise `(hash_list, hash_value)`. -/
def hash_lookup_request (args : LookupWorkerArgs)
    (server : HashQuery → StringsQueryResult) : Option (List HashRecord × Nat) :=
  match server (hash_lookup_request_query args) with
  | .timeout => none
  | .response hashes =>
    if hashes.isEmpty then none else some (hashes, args.hash_value)

/-- The parameters of a `get_module_hashes` request (lines 487-498),
issued by the done handler during bulk API import. -/
structure ModuleQuery where
  module_name : String
  algorithm : String
  permutation : String
  api_url : String
deriving DecidableEq, Repr

/-- The external interactions available to `hash_lookup_done_handler`:
the collision-selection dialog (`match_select_t.show`, returning the
chosen display string or `None` on cancel), the module-import dialog
(`api_import_select_t.show`), the module-hashes service (`none` models
`requests.Timeout`; otherwise the `(api, hash)` pairs of the response),
and whether the host can create/find the target enum and set its width
(the part of `add_enums` that can make it return `None`). -/
structure LookupCbEnv where
  collisionChoice : List String → Option String
  moduleChoice : List String → Option String
  moduleServer : ModuleQuery → Option (List (String × Nat))
  enumCreateOk : Bool

/-- What a run of `hash_lookup_done_handler` did: the final member list
of the target enum, the enum name used for the writes (`none` when the
handler returned before naming an enum), the `(name, value)` pairs
passed to successful `add_enums` calls, and the module-hashes query it
issued (if any). -/
structure HandlerResult where
  members : EnumMembers
  enumName : Option String
  writes : List (String × Nat)
  moduleQuery : Option ModuleQuery
deriving DecidableEq, Repr

/-- Embeds `hash_lookup_done_handler(hash_list, hash_value)` (lines
1185-1298).  `cbApiUrl`, `cbAlg`, `cbBase`, `cbUseXor` and `cbXor` are
the values of the globals `HASHDB_API_URL`, `HASHDB_ALGORITHM`,
`ENUM_PREFIX`, `HASHDB_USE_XOR` and `HASHDB_XOR_VALUE` at the time the
callback runs (the handler reads all of them live, lines 1240, 1276-77
and 1284-89).  `make_const_enum` (operand tagging) has no effect on the
modelled state and is omitted. -/
def hash_lookup_done_handler (cbApiUrl cbAlg cbBase : String)
    (cbUseXor : Bool) (cbXor : Nat) (env : LookupCbEnv) (members : EnumMembers)
    (hash_list : Option (List HashRecord)) (hash_value : Option Nat) :
    HandlerResult :=
  match hash_list, hash_value with
  | none, _ => ⟨members, none, [], none⟩
  | some _, none => ⟨members, none, [], none⟩
  | some hl, some hv =>
    let chosen : Option HashString :=
      if hl.length = 1 then some ((hl.headD ⟨none⟩).stringObj.getD hsDefault)
      else
        let collisions := collisionsOf hl
        match env.collisionChoice (collisions.map (fun kv => kv.1)) with
        | none => none
        | some sel =>
          some (((collisions.find? (fun kv => kv.1 == sel)).map
            (fun kv => kv.2)).getD hsDefault)
    match chosen with
    | none => ⟨members, none, [], none⟩
    | some hash_string =>
      let string_value := resolve_string_value hash_string
      let enum_name := generate_enum_name cbBase cbAlg
      match add_enums_host env.enumCreateOk members [(string_value, hv)] with
      | none => ⟨members, some enum_name, [], none⟩
      | some ms =>
        if hash_string.is_api.getD false = false then
          ⟨ms, some enum_name, [(string_value, hv)], none⟩
        else
          match env.moduleChoice hash_string.modules with
          | none => ⟨ms, some enum_name, [(string_value, hv)], none⟩
          | some module_name =>
            let mq : ModuleQuery := ⟨module_name, cbAlg, hash_string.permutation, cbApiUrl⟩
            match env.moduleServer mq with
            | none => ⟨ms, some enum_name, [(string_value, hv)], some mq⟩
            | some module_hashes =>
              let enum_list := module_hashes.map
                (fun fe => (fe.1, if cbUseXor then fe.2 ^^^ cbXor else fe.2))
              match add_enums_host env.enumCreateOk ms enum_list with
              | none => ⟨ms, some enum_name, [(string_value, hv)], some mq⟩
              | some ms2 => ⟨ms2, some enum_name, (string_value, hv) :: enum_list, some mq⟩

/-- Embeds `hash_lookup_done` (lines 1301-1306): run the handler, then
release the request lock exactly once.  The second component is the
number of lock releases performed. -/
def hash_lookup_done (cbApiUrl cbAlg cbBase : String) (cbUseXor : Bool)
    (cbXor : Nat) (env : LookupCbEnv) (members : EnumMembers)
    (hash_list : Option (List HashRecord)) (hash_value : Option Nat) :
    HandlerResult × Nat :=
  (hash_lookup_done_handler cbApiUrl cbAlg cbBase cbUseXor cbXor env members
    hash_list hash_value, 1)

/-- `hash_lookup_error` (lines 1309-1314) logs and releases the lock
exactly once. -/
def hash_lookup_error_releases : Nat := 1

/-- Embeds the release decision of `hash_lookup_run(timeout)` (lines
1337-1370), the value it returns to `hash_lookup`:
`True` ("release the lock") when no algorithm is configured and the
offered settings dialog is cancelled, or when no hash value can be
parsed from the highlight; `False` ("do not release") once the `Worker`
has been launched. -/
def hash_lookup_run (algorithmConfigured settingsAccepted : Bool)
    (highlight : Option String) : Bool :=
  if ¬algorithmConfigured ∧ ¬settingsAccepted then true
  else if (parse_highlighted_value highlight).isNone then true
  else false

/-- The launch-phase and callback-phase trace of one full lookup
pipeline run: the remote query issued by the worker, computed from the
launch-time snapshot, and the handler's result, computed from the
callback-time globals. -/
structure LookupRunTrace where
  query : HashQuery
  result : HandlerResult
deriving DecidableEq, Repr

/-- One hash-lookup pipeline run end to end: `hash_lookup_run` snapshots
the worker arguments from `launchCfg`, `hash_lookup_request` queries the
server, and `hash_lookup_done_handler` runs against the callback-time
globals `cbApiUrl`/`cbAlg`/`cbBase`/`cbUseXor`/`cbXor`. -/
def hash_lookup_pipeline (launchCfg : Config) (hash_value : Nat)
    (server : HashQuery → StringsQueryResult)
    (cbApiUrl cbAlg cbBase : String) (cbUseXor : Bool) (cbXor : Nat)
    (env : LookupCbEnv) (members : EnumMembers) : LookupRunTrace :=
  let args := lookup_worker_args launchCfg hash_value
  let req := hash_lookup_request args server
  ⟨hash_lookup_request_query args,
   hash_lookup_done_handler cbApiUrl cbAlg cbBase cbUseXor cbXor env members
     (req.map (fun r => r.1)) (req.map (fun r => r.2))⟩

/-! ## Range scan pipeline (lines 1401-1634) -/

/-- One entry produced by `scan_range` (lines 1574-1598): the address,
the value read there and the consumed width. -/
structure ScanValue where
  ea : Nat
  hash_value : Nat
  size : Nat
deriving DecidableEq, Repr

/-- A scan entry after `hash_scan_request` attached the query's
`hashes` array to it (line 1530). -/
structure ScanEntry where
  ea : Nat
  hash_value : Nat
  size : Nat
  hashes : List HashRecord
deriving DecidableEq, Repr

/-- Embeds `hash_scan_request` (lines 1519-1531): query every entry in
order; a `requests.Timeout` on any query makes the whole function
return `None`, otherwise it returns `(convert_values, hash_list)` with
the responses attached. -/
def hash_scan_request (server : HashQuery → StringsQueryResult)
    (convert_values : Bool) (api_url algorithm : String) (xor_value : Option Nat) :
    List ScanValue → Option (Bool × List ScanEntry)
  | [] => some (convert_values, [])
  | v :: rest =>
    match server (get_strings_from_hash_query algorithm v.hash_value
        (xor_value.getD 0) api_url) with
    | .timeout => none
    | .response hs =>
      match hash_scan_request server convert_values api_url algorithm xor_value rest with
      | none => none
      | some (cv, es) => some (cv, ⟨v.ea, v.hash_value, v.size, hs⟩ :: es)

/-- The external interactions available to `hash_scan_done`: the
collision dialog and the host's ability to create the target enum. -/
structure ScanCbEnv where
  collisionChoice : List String → Option String
  enumCreateOk : Bool

/-- What a run of `hash_scan_done` did: the final member list of the
target enum, the `(name, value)` pairs written, and how many times the
request lock was released. -/
structure ScanDoneResult where
  members : EnumMembers
  writes : List (String × Nat)
  releases : Nat
deriving DecidableEq, Repr

/-- The per-entry loop of `hash_scan_done` (lines 1412-1505).  An entry
with no matches is reported and skipped; a collision cancelled by the
user, or a failed enum creation, releases the lock and returns at once;
otherwise the resolved pair is added to the enum and the loop continues
(the `convert_values` retyping/tagging/labelling block mutates only the
host's data at the entry's address, never the enum members or the lock,
and is omitted); the loop's end releases the lock once (line 1508). -/
def hash_scan_done_go (env : ScanCbEnv) :
    List ScanEntry → EnumMembers → ScanDoneResult
  | [], members => ⟨members, [], 1⟩
  | e :: rest, members =>
    if e.hashes.length = 0 then hash_scan_done_go env rest members
    else
      let chosen : Option HashString :=
        if e.hashes.length = 1 then some ((e.hashes.headD ⟨none⟩).stringObj.getD hsDefault)
        else
          let collisions := collisionsOf e.hashes
          match env.collisionChoice (collisions.map (fun kv => kv.1)) with
          | none => none
          | some sel =>
            some (((collisions.find? (fun kv => kv.1 == sel)).map
              (fun kv => kv.2)).getD hsDefault)
      match chosen with
      | none => ⟨members, [], 1⟩
      | some hash_string_object =>
        let hash_string_value := resolve_string_value hash_string_object
        match add_enums_host env.enumCreateOk members [(hash_string_value, e.hash_value)] with
        | none => ⟨members, [], 1⟩
        | some ms =>
          let r := hash_scan_done_go env rest ms
          ⟨r.members, (hash_string_value, e.hash_value) :: r.writes, r.releases⟩

/-- Embeds `hash_scan_done(convert_values, hash_list)` (lines
1401-1508), invoked with the (unpacked) return value of
`hash_scan_request`: `None` when a query failed (then nothing is
written and the lock is released once), else the entry loop runs. -/
def hash_scan_done (env : ScanCbEnv) (arg : Option (Bool × List ScanEntry))
    (members : EnumMembers) : ScanDoneResult :=
  match arg with
  | none => ⟨members, [], 1⟩
  | some p => hash_scan_done_go env p.2 members

/-- `hash_scan_error` (lines 1511-1516) logs and releases the lock
exactly once. -/
def hash_scan_error_releases : Nat := 1

/-- Embeds the release decision of `hash_scan_run` (lines 1534-1610):
`True` when the viewer is not the disassembler, when no algorithm is
configured and the settings dialog is cancelled, or when the (possibly
just configured) algorithm size is neither 32 nor 64; `False` once the
`Worker` has been launched. -/
def hash_scan_run (inDisassembler algorithmConfigured settingsAccepted : Bool)
    (algorithm_size : Nat) : Bool :=
  if ¬inDisassembler then true
  else if ¬algorithmConfigured ∧ ¬settingsAccepted then true
  else if ¬(algorithm_size = 32 ∨ algorithm_size = 64) then true
  else false

/-! ## Algorithm hunt pipeline (lines 1640-1747) -/

/-- Embeds `determine_algorithm_size` (lines 1149-1158). -/
def determine_algorithm_size (algorithm_type : Option String) : String :=
  match algorithm_type with
  | none => "Unknown"
  | some t =>
    if t = "unsigned_int" then "32"
    else if t = "unsigned_long" then "64"
    else "Unknown"

/-- The `[algorithm, size]` list built by `get_algorithms` (lines
444-462) from the catalog's `(algorithm, type)` entries. -/
def get_algorithms_result (catalog : List (String × Option String)) :
    List (String × String) :=
  catalog.map (fun a => (a.1, determine_algorithm_size a.2))

/-- The match collection of `hunt_hash` (lines 507-520): the `algorithm`
fields of the hits, skipping missing ones and duplicates, in order. -/
def hunt_hash_matches (hits : List (Option String)) : List String :=
  hits.foldl (fun acc algo =>
    match algo with
    | none => acc
    | some a => if a ∈ acc then acc else acc ++ [a]) []

/-- The join loop of `hunt_algorithm_request` (lines 1695-1700): for
each match, the first catalog entry with that name (if any) is appended
to the results. -/
def hunt_join (match_results : List String) (algorithms : List (String × String)) :
    List (String × String) :=
  match_results.foldl (fun results m =>
    match algorithms.find? (fun a => a.1 == m) with
    | some a => results ++ [a]
    | none => results) []

/-- Embeds `hunt_algorithm_request(hash_value, timeout)` (lines
1665-1703).  `huntResp` is the hunt endpoint's outcome (`none` models a
caught `requests.Timeout`, otherwise the hits' algorithm fields), and
`algoResp` the catalog re-query's outcome; either timeout returns
`None`, otherwise the joined `(identifier, width)` list is returned. -/
def hunt_algorithm_request (huntResp : Option (List (Option String)))
    (algoResp : Option (List (String × Option String))) :
    Option (List (String × String)) :=
  match huntResp with
  | none => none
  | some hits =>
    match algoResp with
    | none => none
    | some catalog =>
      some (hunt_join (hunt_hash_matches hits) (get_algorithms_result catalog))

/-- A positional argument in the `Worker`'s invocation of the done
callback: the Python value `None` or one `[algorithm, size]` pair. -/
inductive HuntArg
  | noneV
  | pair (p : String × String)
deriving DecidableEq, Repr

/-- The result normalization of `Worker.__async_wrapper` (lines
282-284) applied to `hunt_algorithm_request`'s return value: `None` is
not iterable and becomes the single argument `[None]`, while a result
list — being iterable — is unpacked so that each pair becomes one
positional argument of `done_callback(*result)`. -/
def hunt_worker_done_args : Option (List (String × String)) → List HuntArg
  | none => [.noneV]
  | some rs => rs.map .pair

/-- What a completed run of `hunt_algorithm_done` did: the rows passed
to `hunt_result_form_t.show` (if it was shown), whether the no-match
message was printed instead, whether `set_algorithm` was invoked (the
user picked a row), and whether the request lock was released. -/
structure HuntDoneEffect where
  presented : Option (List (String × String))
  reportedNoMatch : Bool
  setAlgorithmCalled : Bool
  lockReleased : Bool
deriving DecidableEq, Repr

/-- Embeds `hunt_algorithm_done(response)` (lines 1640-1654): a `None`
response prints the no-match message; otherwise `[response]` — a
one-row list — is shown in `hunt_result_form_t`, and the user's
selection (if any) sets the active algorithm; either way the lock is
released once at the end. -/
def hunt_algorithm_done (response : Option (String × String))
    (userSelection : Option Nat) : HuntDoneEffect :=
  match response with
  | none => ⟨none, true, false, true⟩
  | some p => ⟨some [p], false, userSelection.isSome, true⟩

/-- The invocation `done_callback(*result)` for the hunt pipeline:
`hunt_algorithm_done` accepts zero or one positional arguments, so an
argument list with two or more entries raises a `TypeError` before the
callback body runs. -/
def hunt_invoke_done (args : List HuntArg) (userSelection : Option Nat) :
    Except PyExc HuntDoneEffect :=
  match args with
  | [] => .ok (hunt_algorithm_done none userSelection)
  | [.noneV] => .ok (hunt_algorithm_done none userSelection)
  | [.pair p] => .ok (hunt_algorithm_done (some p) userSelection)
  | _ => .error .typeError

/-- The observable outcome of the hunt worker's completion handling:
the done callback's effect if it ran to completion, whether the error
callback ran instead, and whether an exception propagated out of the
thread (in which case neither callback ran and the lock was not
released). -/
structure HuntOutcome where
  effect : Option HuntDoneEffect
  errorCbInvoked : Bool
  propagated : Bool
deriving DecidableEq, Repr

/-- `Worker.__async_wrapper` delivering `hunt_algorithm_request`'s
return value `ret` to `hunt_algorithm_done`: normalize, unpack and
invoke; an exception raised by the invocation is classified by the
wrapper's `except` clauses (a `TypeError` is unexpected and is
re-raised). -/
def hunt_async_outcome (ret : Option (List (String × String)))
    (userSelection : Option Nat) : HuntOutcome :=
  match hunt_invoke_done (hunt_worker_done_args ret) userSelection with
  | .ok eff => ⟨some eff, false, false⟩
  | .error e =>
    if isExpectedAsyncExc e then ⟨none, true, false⟩
    else ⟨none, false, true⟩

/-- `hunt_algorithm_error` (lines 1657-1662) logs and releases the lock
exactly once. -/
def hunt_algorithm_error_releases : Nat := 1

/-- Embeds the release decision of `hunt_algorithm_run` (lines
1706-1723): `True` when no hash value can be parsed from the highlight,
`False` once the `Worker` has been launched. -/
def hunt_algorithm_run (highlight : Option String) : Bool :=
  if (parse_highlighted_value highlight).isNone then true else false

/-! ## Single-flight sessions (lines 1373-1394, 1613-1634, 1726-1747)

The three entry points `hash_lookup`, `hash_scan` and `hunt_algorithm`
share the same gate logic around `HASHDB_REQUEST_LOCK`: if the lock is
already held the call only shows an informational message and returns
(no acquire, no worker, no callback); otherwise the lock is acquired,
the pipeline's `*_run` function executes, and either the run's
pre-flight released synchronously (`release_lock = True`) or a `Worker`
was launched whose terminal callback — exactly one of done/error —
releases.  A session summary records the whole lifecycle of one entry
call. -/

/-- Lifecycle summary of one entry-point invocation: whether the lock
was acquired, whether background work was started, how many completion
callbacks of this request ran, and how many times the lock was
released on behalf of this request. -/
structure SessionSummary where
  acquired : Bool
  launched : Bool
  callbackInvocations : Nat
  releases : Nat
deriving DecidableEq, Repr

/-- The terminal callback of a launched lookup worker: the done callback
running to completion with its arguments, or the error callback. -/
inductive LookupCbCase
  | doneCase (cbApiUrl cbAlg cbBase : String) (cbUseXor : Bool) (cbXor : Nat)
      (env : LookupCbEnv) (members : EnumMembers)
      (hash_list : Option (List HashRecord)) (hash_value : Option Nat)
  | errorCase

/-- Lock releases performed by the lookup worker's terminal callback. -/
def lookup_callback_releases : LookupCbCase → Nat
  | .doneCase cbApiUrl cbAlg cbBase cbUseXor cbXor env members hl hv =>
    (hash_lookup_done cbApiUrl cbAlg cbBase cbUseXor cbXor env members hl hv).2
  | .errorCase => hash_lookup_error_releases

/-- One `hash_lookup()` invocation (lines 1373-1394) with the lifecycle
of the worker it may launch. -/
def hash_lookup_session (lockHeld : Bool)
    (algorithmConfigured settingsAccepted : Bool) (highlight : Option String)
    (cb : LookupCbCase) : SessionSummary :=
  if lockHeld then ⟨false, false, 0, 0⟩
  else
    let release_lock := hash_lookup_run algorithmConfigured settingsAccepted highlight
    if release_lock then ⟨true, false, 0, 1⟩
    else ⟨true, true, 1, lookup_callback_releases cb⟩

/-- The terminal callback of a launched scan worker. -/
inductive ScanCbCase
  | doneCase (env : ScanCbEnv) (arg : Option (Bool × List ScanEntry))
      (members : EnumMembers)
  | errorCase

/-- Lock releases performed by the scan worker's terminal callback. -/
def scan_callback_releases : ScanCbCase → Nat
  | .doneCase env arg members => (hash_scan_done env arg members).releases
  | .errorCase => hash_scan_error_releases

/-- One `hash_scan()` invocation (lines 1613-1634) with the lifecycle of
the worker it may launch. -/
def hash_scan_session (lockHeld : Bool)
    (inDisassembler algorithmConfigured settingsAccepted : Bool)
    (algorithm_size : Nat) (cb : ScanCbCase) : SessionSummary :=
  if lockHeld then ⟨false, false, 0, 0⟩
  else
    let release_lock := hash_scan_run inDisassembler algorithmConfigured
      settingsAccepted algorithm_size
    if release_lock then ⟨true, false, 0, 1⟩
    else ⟨true, true, 1, scan_callback_releases cb⟩

/-- The terminal callback of a launched hunt worker; `doneCase` is the
done callback body executing with its `response` parameter. -/
inductive HuntCbCase
  | doneCase (response : Option (String × String)) (userSelection : Option Nat)
  | errorCase

/-- Lock releases performed by the hunt worker's terminal callback. -/
def hunt_callback_releases : HuntCbCase → Nat
  | .doneCase response sel =>
    if (hunt_algorithm_done response sel).lockReleased then 1 else 0
  | .errorCase => hunt_algorithm_error_releases

/-- One `hunt_algorithm()` invocation (lines 1726-1747) with the
lifecycle of the worker it may launch. -/
def hunt_algorithm_session (lockHeld : Bool) (highlight : Option String)
    (cb : HuntCbCase) : SessionSummary :=
  if lockHeld then ⟨false, false, 0, 0⟩
  else
    let release_lock := hunt_algorithm_run highlight
    if release_lock then ⟨true, false, 0, 1⟩
    else ⟨true, true, 1, hunt_callback_releases cb⟩

/-! ## Concrete instances used by the theorems -/

/-- A lookup service for which the query for hash value 3 times out and
every other query returns no matches. -/
def c7Server : HashQuery → StringsQueryResult :=
  fun q => if q.value = 3 then .timeout else .response []

/-- A scan callback environment: collision dialogs are cancelled and the
host can create the enum. -/
def c7Env : ScanCbEnv := ⟨fun _ => none, true⟩

/-- The default configuration with the `crc32` algorithm selected. -/
def c9LaunchCfg : Config :=
  ⟨"https://hashdb.openanalysis.net", false, 0, some "crc32", 32, "hashdb_strings"⟩

/-- A lookup callback environment: all dialogs cancelled, enum creation
succeeds. -/
def c9Env : LookupCbEnv := ⟨fun _ => none, fun _ => none, fun _ => none, true⟩

/-- A single non-API match record for the counterexample runs. -/
def c9Record : HashRecord := ⟨some ⟨some false, some "CreateFileA", none, [], ""⟩⟩

/-- A lookup service returning exactly the one match `c9Record`. -/
def c9Server : HashQuery → StringsQueryResult := fun _ => .response [c9Record]

/-- An API-symbol match record (left untouched by the NUL stripping). -/
def c10ApiRec : HashRecord :=
  ⟨some ⟨some true, some "x\x00y", some "GetProcAddress", ["kernel32"], "A"⟩⟩

/-- A non-API match record whose candidate string contains NULs. -/
def c10StrRec : HashRecord := ⟨some ⟨some false, some "a\x00b\x00", none, [], ""⟩⟩

/-- `c10StrRec` after NUL removal. -/
def c10StrRecStripped : HashRecord := ⟨some ⟨some false, some "ab", none, [], ""⟩⟩

/-! ## Helper lemmas -/

/-- A list with no member satisfying `p` (witnessed by `find?`) filters
to the empty list. -/
theorem filter_eq_nil_of_find?_eq_none {α : Type} {p : α → Bool} {l : List α}
    (h : l.find? p = none) : l.filter p = [] :=
  List.filter_eq_nil_iff.mpr (List.find?_eq_none.mp h)

/-- Every path through the `hash_scan_done` entry loop releases the
request lock exactly once. -/
theorem hash_scan_done_go_releases (env : ScanCbEnv) :
    ∀ (entries : List ScanEntry) (members : EnumMembers),
      (hash_scan_done_go env entries members).releases = 1 := by
  intro entries
  induction entries with
  | nil => intro members; rfl
  | cons e rest ih =>
    intro members
    rw [hash_scan_done_go]
    split
    · exact ih members
    · dsimp only
      repeat' split
      all_goals first | rfl | apply ih

/-- The attempt loop of `add_enums` inserts a member whose name is one of
the at most `fuel` attempt names starting at `idx`, or gives up leaving
the enum unchanged. -/
theorem insertAttempts_bound (members : EnumMembers) (n : String) (v : Nat) :
    ∀ (fuel idx : Nat) (ms : EnumMembers),
      insertAttempts members n v fuel idx = some ms →
      ms = members ∨
        ∃ i, idx ≤ i ∧ i < idx + fuel ∧ ms = members ++ [⟨attemptName n i, v⟩] := by
  intro fuel
  induction fuel with
  | zero =>
    intro idx ms h
    rw [insertAttempts] at h
    exact Or.inl (Option.some.inj h).symm
  | succ fuel ih =>
    intro idx ms h
    rw [insertAttempts, add_enum_member] at h
    by_cases hname : (members.any (fun m => m.name == attemptName n idx)) = true
    · rw [if_pos hname] at h
      rcases ih (idx + 1) ms h with h' | ⟨i, hi1, hi2, hi3⟩
      · exact Or.inl h'
      · exact Or.inr ⟨i, by omega, by omega, hi3⟩
    · rw [if_neg hname] at h
      exact Or.inr ⟨idx, le_refl idx, by omega, (Option.some.inj h).symm⟩

/-- If every query before some entry succeeds and that entry's query
times out, `hash_scan_request` returns `None`. -/
theorem hash_scan_request_abort (server : HashQuery → StringsQueryResult)
    (cv : Bool) (api_url algorithm : String) (xorv : Option Nat)
    (v : ScanValue) (post : List ScanValue)
    (hfail : server (get_strings_from_hash_query algorithm v.hash_value
      (xorv.getD 0) api_url) = StringsQueryResult.timeout) :
    ∀ pre : List ScanValue,
      (∀ x ∈ pre, server (get_strings_from_hash_query algorithm x.hash_value
        (xorv.getD 0) api_url) ≠ StringsQueryResult.timeout) →
      hash_scan_request server cv api_url algorithm xorv (pre ++ v :: post) = none := by
  intro pre
  induction pre with
  | nil =>
    intro _
    rw [List.nil_append, hash_scan_request, hfail]
  | cons x xs ih =>
    intro hok
    have hx := hok x (List.mem_cons_self x xs)
    rw [List.cons_append, hash_scan_request]
    rcases hsv : server (get_strings_from_hash_query algorithm x.hash_value
        (xorv.getD 0) api_url) with _ | hs
    · exact absurd hsv hx
    · rw [ih (fun y hy => hok y (List.mem_cons_of_mem x hy))]

/-! ## Claims -/

/-- C1: for every task run by the `Worker` task runner — blocking
(`__wrapper`) or suspendable (`__async_wrapper`), with both callbacks
set as every pipeline does — normal completion invokes `onDone` exactly
once, cancellation (an injected `SystemExit` for blocking work, the
stopped loop's `RuntimeError` or a `CancelledError` for suspendable
work) and timeout (`TimeoutError`) invoke `onError` exactly once, never
both and never zero; an unclassified exception propagates out of the
wrapper and invokes neither callback.  The final two equations state
that over all target outcomes exactly one of done-callback,
error-callback or propagation happens. -/
theorem C1_exactly_one_callback :
    ∀ (r : Nat) (t : Except PyExc Nat),
      wrapper_run true true (Except.ok r) = ⟨1, 0, false⟩ ∧
      wrapper_run true true (Except.error PyExc.systemExit : Except PyExc Nat)
        = ⟨0, 1, false⟩ ∧
      wrapper_run true true (Except.error PyExc.typeError : Except PyExc Nat)
        = ⟨0, 0, true⟩ ∧
      wrapper_run true true (Except.error PyExc.hashDBError : Except PyExc Nat)
        = ⟨0, 0, true⟩ ∧
      async_wrapper_run true true (Except.ok r) = ⟨1, 0, false⟩ ∧
      async_wrapper_run true true (Except.error PyExc.runtimeError : Except PyExc Nat)
        = ⟨0, 1, false⟩ ∧
      async_wrapper_run true true (Except.error PyExc.timeoutError : Except PyExc Nat)
        = ⟨0, 1, false⟩ ∧
      async_wrapper_run true true (Except.error PyExc.cancelledError : Except PyExc Nat)
        = ⟨0, 1, false⟩ ∧
      async_wrapper_run true true (Except.error PyExc.typeError : Except PyExc Nat)
        = ⟨0, 0, true⟩ ∧
      async_wrapper_run true true (Except.error PyExc.hashDBError : Except PyExc Nat)
        = ⟨0, 0, true⟩ ∧
      ((wrapper_run true true t).doneInvocations
        + (wrapper_run true true t).errorInvocations
        + (if (wrapper_run true true t).propagated then 1 else 0) = 1) ∧
      ((async_wrapper_run true true t).doneInvocations
        + (async_wrapper_run true true t).errorInvocations
        + (if (async_wrapper_run true true t).propagated then 1 else 0) = 1) := by
  intro r t
  refine ⟨rfl, rfl, rfl, rfl, rfl, rfl, rfl, rfl, rfl, rfl, ?_, ?_⟩ <;>
    (cases t with
     | ok v => rfl
     | error e => cases e <;> rfl)

/-- C3: while the single-flight lock is held, invoking any of the three
pipeline entry points acquires nothing, starts no background work,
invokes neither callback of the rejected attempt and performs no
release; once the lock is free again (the previous request's terminal
callback released it), a launch with a valid pre-flight succeeds. -/
theorem C3_single_flight_rejection :
    (∀ (ac sa : Bool) (hl : Option String) (cb : LookupCbCase),
      hash_lookup_session true ac sa hl cb = ⟨false, false, 0, 0⟩) ∧
    (∀ (ind ac sa : Bool) (sz : Nat) (cb : ScanCbCase),
      hash_scan_session true ind ac sa sz cb = ⟨false, false, 0, 0⟩) ∧
    (∀ (hl : Option String) (cb : HuntCbCase),
      hunt_algorithm_session true hl cb = ⟨false, false, 0, 0⟩) ∧
    (hash_lookup_session false true true (some "0x1A") .errorCase).launched = true ∧
    (hash_scan_session false true true true 32 .errorCase).launched = true ∧
    (hunt_algorithm_session false (some "0x1A") .errorCase).launched = true := by
  refine ⟨fun ac sa hl cb => rfl, fun ind ac sa sz cb => rfl, fun hl cb => rfl,
    by decide, by decide, by decide⟩

/-- C4 counterexample: the highlighted text `"123q"` does not return "no
value" — it carries no octal marker, is treated as a decimal literal,
is truncated at the invalid character `q`, and parses to `123`. -/
theorem C4_counterexample : parse_highlighted_value (some "123q") = some 123 := by
  decide

/-- C4 (amended): `parse_highlighted_value` parses the highlight as a
decimal/hex/octal/binary literal with a per-base character set,
truncating at the first invalid character; `"41414141h"` parses to
`0x41414141` and `"0x1A"` to `26`; it returns no value only when no
valid leading digit exists (e.g. `"q123"`, or no highlight at all) —
`"123q"` parses to `123`. -/
theorem C4_parse_highlighted_value :
    parse_highlighted_value (some "41414141h") = some 0x41414141 ∧
    parse_highlighted_value (some "0x1A") = some 26 ∧
    parse_highlighted_value (some "123q") = some 123 ∧
    parse_highlighted_value (some "q123") = none ∧
    parse_highlighted_value (some "777o") = some 511 ∧
    parse_highlighted_value (some "101b") = some 5 ∧
    parse_highlighted_value none = none := by
  refine ⟨by decide, by decide, by decide, by decide, by decide, by decide, rfl⟩

/-- C6: inserting `("foo", 1)` then `("foo", 2)` into an empty enum via
`add_enums` yields two members, the second renamed `foo_1` by the
collision-suffix loop; the loop is bounded to `MAXIMUM_ATTEMPTS = 256`
attempts — whatever it does, it either gives up leaving the enum
unchanged or inserts exactly one member named with one of the attempt
names `n, n_1, ..., n_255`. -/
theorem C6_name_collision_suffix :
    add_enums_host true [] [("foo", 1), ("foo", 2)]
        = some [⟨"foo", 1⟩, ⟨"foo_1", 2⟩] ∧
    MAXIMUM_ATTEMPTS = 256 ∧
    (∀ (members : EnumMembers) (n : String) (v : Nat) (ms : EnumMembers),
      insertAttempts members n v MAXIMUM_ATTEMPTS 0 = some ms →
      ms = members ∨
        ∃ i, i < MAXIMUM_ATTEMPTS ∧ ms = members ++ [⟨attemptName n i, v⟩]) := by
  refine ⟨by decide, rfl, fun members n v ms h => ?_⟩
  rcases insertAttempts_bound members n v MAXIMUM_ATTEMPTS 0 ms h with h' | ⟨i, _, hi2, hi3⟩
  · exact Or.inl h'
  · exact Or.inr ⟨i, by omega, hi3⟩

/-- C6 witness: the bounded-attempt conjunct applied to the concrete
collision `("foo", 2)` against an enum already holding `("foo", 1)`:
the insertion lands on an attempt name. -/
theorem C6_name_collision_suffix_witness :
    [⟨"foo", 1⟩, ⟨"foo_1", 2⟩] = ([⟨"foo", 1⟩] : EnumMembers) ∨
      ∃ i, i < MAXIMUM_ATTEMPTS ∧
        ([⟨"foo", 1⟩, ⟨"foo_1", 2⟩] : EnumMembers)
          = [⟨"foo", 1⟩] ++ [⟨attemptName "foo" i, 2⟩] :=
  C6_name_collision_suffix.2.2 [⟨"foo", 1⟩] "foo" 2 [⟨"foo", 1⟩, ⟨"foo_1", 2⟩]
    (by decide)

/-- C8 (the code at the failing input): a hunt for which two candidate
algorithms match — e.g. hits `crc32` and `crc64`, both present in the
catalog — produces the joined `(identifier, width)` list of length two,
but the `Worker` unpacks that list as positional arguments of
`hunt_algorithm_done`, which accepts at most one, so the invocation
raises a `TypeError` that propagates: nothing is presented, the error
callback does not run, and the lock is not released.  An empty
candidate list is reported as the no-match message (not an error) with
`set_algorithm` never called, and a single candidate is presented as a
one-row list. -/
theorem C8_hunt_result_presentation :
    hunt_algorithm_request (some [some "crc32", some "crc64"])
        (some [("crc32", some "unsigned_int"), ("crc64", some "unsigned_long")])
      = some [("crc32", "32"), ("crc64", "64")] ∧
    hunt_async_outcome (some [("crc32", "32"), ("crc64", "64")]) none
      = ⟨none, false, true⟩ ∧
    hunt_async_outcome (hunt_algorithm_request (some [])
        (some [("crc32", some "unsigned_int")])) none
      = ⟨some ⟨none, true, false, true⟩, false, false⟩ ∧
    hunt_async_outcome (hunt_algorithm_request (some [some "crc32"])
        (some [("crc32", some "unsigned_int")])) none
      = ⟨some ⟨some [("crc32", "32")], false, false, true⟩, false, false⟩ := by
  refine ⟨by decide, by decide, by decide, by decide⟩

/-- C2: every successful acquisition of the single-flight request lock
by an entry point is matched by exactly one release, on every exit
path: when the lock is free the session acquires it, and whether the
pre-flight returns early (invalid selection, cancelled settings dialog,
wrong viewer, bad algorithm size), the error callback runs, or any path
through the done callback runs (including the scan loop's
collision-cancel and enum-failure early returns), the total number of
releases for the request is exactly one; a rejected call (lock already
held) releases nothing. -/
theorem C2_release_balance :
    (∀ (ac sa : Bool) (hl : Option String) (cb : LookupCbCase),
      (hash_lookup_session false ac sa hl cb).acquired = true ∧
      (hash_lookup_session false ac sa hl cb).releases = 1 ∧
      (hash_lookup_session true ac sa hl cb).releases = 0) ∧
    (∀ (ind ac sa : Bool) (sz : Nat) (cb : ScanCbCase),
      (hash_scan_session false ind ac sa sz cb).acquired = true ∧
      (hash_scan_session false ind ac sa sz cb).releases = 1 ∧
      (hash_scan_session true ind ac sa sz cb).releases = 0) ∧
    (∀ (hl : Option String) (cb : HuntCbCase),
      (hunt_algorithm_session false hl cb).acquired = true ∧
      (hunt_algorithm_session false hl cb).releases = 1 ∧
      (hunt_algorithm_session true hl cb).releases = 0) := by
  refine ⟨fun ac sa hl cb => ?_, fun ind ac sa sz cb => ?_, fun hl cb => ?_⟩
  · refine ⟨?_, ?_, rfl⟩ <;>
      cases h : hash_lookup_run ac sa hl <;>
        (simp only [hash_lookup_session, if_false, h, Bool.false_eq_true, if_true]
         all_goals first
           | rfl
           | (cases cb <;> rfl))
  · refine ⟨?_, ?_, rfl⟩ <;>
      cases h : hash_scan_run ind ac sa sz <;>
        (simp only [hash_scan_session, if_false, h, Bool.false_eq_true, if_true]
         all_goals first
           | rfl
           | (rcases cb with ⟨env, arg, members⟩ | _
              · rcases arg with _ | p
                · rfl
                · exact hash_scan_done_go_releases env p.2 members
              · rfl))
  · refine ⟨?_, ?_, rfl⟩ <;>
      cases h : hunt_algorithm_run hl <;>
        (simp only [hunt_algorithm_session, if_false, h, Bool.false_eq_true, if_true]
         all_goals first
           | rfl
           | (rcases cb with ⟨resp, sel⟩ | _
              · rcases resp with _ | p <;> rfl
              · rfl))

/-- C5: `add_enums` deduplicates by value: inserting the same
`(name, value)` pair twice (into an enum whose member values do not yet
include the value, under a fresh name) adds exactly one member — the
second insertion is skipped because the value is already present — and
is indistinguishable from inserting the pair once. -/
theorem C5_dedup_by_value (members : EnumMembers) (n : String) (v : Nat)
    (hv : get_enum_member members v = none)
    (hn : members.any (fun m => m.name == n) = false) :
    add_enums_host true members [(n, v), (n, v)]
      = some (members ++ [(⟨n, v⟩ : EnumMember)]) ∧
    add_enums_host true members [(n, v), (n, v)]
      = add_enums_host true members [(n, v)] ∧
    ((members ++ [(⟨n, v⟩ : EnumMember)]).filter
      (fun m => m.value == v)).length = 1 := by
  have hv' : List.find? (fun m => m.value == v) members = none := hv
  have h1 : insertAttempts members n v MAXIMUM_ATTEMPTS 0
      = some (members ++ [(⟨n, v⟩ : EnumMember)]) := by
    rw [show MAXIMUM_ATTEMPTS = 255 + 1 from rfl, insertAttempts]
    simp [attemptName, add_enum_member, hn]
  have h2 : get_enum_member (members ++ [(⟨n, v⟩ : EnumMember)]) v
      = some (⟨n, v⟩ : EnumMember) := by
    rw [get_enum_member, List.find?_append, hv']
    simp
  have hloopSingle : add_enums_loop members [(n, v)]
      = some (members ++ [(⟨n, v⟩ : EnumMember)]) := by
    rw [add_enums_loop, hv]
    simp only [Option.isSome_none, Bool.false_eq_true, if_false, h1]
    rw [add_enums_loop]
  have hloop : add_enums_loop members [(n, v), (n, v)]
      = some (members ++ [(⟨n, v⟩ : EnumMember)]) := by
    rw [add_enums_loop, hv]
    simp only [Option.isSome_none, Bool.false_eq_true, if_false, h1]
    rw [add_enums_loop, h2]
    simp only [Option.isSome_some, if_true]
    rw [add_enums_loop]
  refine ⟨?_, ?_, ?_⟩
  · rw [add_enums_host, if_pos rfl, hloop]
  · rw [add_enums_host, if_pos rfl, hloop, add_enums_host, if_pos rfl, hloopSingle]
  · rw [List.filter_append, filter_eq_nil_of_find?_eq_none hv']
    simp

/-- C5 witness: inserting `("bar", 7)` twice into an empty enum yields
exactly one member. -/
theorem C5_dedup_by_value_witness :
    add_enums_host true [] [("bar", 7), ("bar", 7)]
      = some ([] ++ [(⟨"bar", 7⟩ : EnumMember)]) ∧
    add_enums_host true [] [("bar", 7), ("bar", 7)]
      = add_enums_host true [] [("bar", 7)] ∧
    ((([] : EnumMembers) ++ [(⟨"bar", 7⟩ : EnumMember)]).filter
      (fun m => m.value == 7)).length = 1 :=
  C5_dedup_by_value [] "bar" 7 rfl rfl

/-- C7: if any single remote query of a range scan fails (the entry's
`get_strings_from_hash` call raises `requests.Timeout` while all
earlier queries succeeded), `hash_scan_request` returns `None`, and the
done callback then writes nothing at all: the entries after the failing
one are not written, the enum's existing members (everything committed
before this scan step) are left exactly as they were, and the lock is
released once.  (In this code all remote queries complete before any
entry is written, so a failed query aborts the scan before any write of
this scan happens.) -/
theorem C7_scan_abort (server : HashQuery → StringsQueryResult)
    (cv : Bool) (api_url algorithm : String) (xorv : Option Nat)
    (pre post : List ScanValue) (v : ScanValue)
    (env : ScanCbEnv) (members : EnumMembers)
    (hok : ∀ x ∈ pre, server (get_strings_from_hash_query algorithm x.hash_value
      (xorv.getD 0) api_url) ≠ StringsQueryResult.timeout)
    (hfail : server (get_strings_from_hash_query algorithm v.hash_value
      (xorv.getD 0) api_url) = StringsQueryResult.timeout) :
    hash_scan_request server cv api_url algorithm xorv (pre ++ v :: post) = none ∧
    hash_scan_done env
        (hash_scan_request server cv api_url algorithm xorv (pre ++ v :: post))
        members
      = ⟨members, [], 1⟩ := by
  have hreq := hash_scan_request_abort server cv api_url algorithm xorv v post hfail pre hok
  exact ⟨hreq, by rw [hreq]; rfl⟩

/-- C7 witness: a scan over five values 1..5 where the query for value 3
times out: the request aborts and the done callback writes nothing,
leaving the enum untouched. -/
theorem C7_scan_abort_witness :
    hash_scan_request c7Server true "u" "crc32" none
        ([⟨0, 1, 4⟩, ⟨4, 2, 4⟩] ++ ⟨8, 3, 4⟩ :: [⟨12, 4, 4⟩, ⟨16, 5, 4⟩]) = none ∧
    hash_scan_done c7Env
        (hash_scan_request c7Server true "u" "crc32" none
          ([⟨0, 1, 4⟩, ⟨4, 2, 4⟩] ++ ⟨8, 3, 4⟩ :: [⟨12, 4, 4⟩, ⟨16, 5, 4⟩]))
        [] = ⟨[], [], 1⟩ :=
  C7_scan_abort c7Server true "u" "crc32" none [⟨0, 1, 4⟩, ⟨4, 2, 4⟩]
    [⟨12, 4, 4⟩, ⟨16, 5, 4⟩] ⟨8, 3, 4⟩ c7Env [] (by decide) (by decide)

/-- C9 counterexample: two runs of the same lookup invocation with the
same launch-time configuration, highlight and server response, the
second differing only in the value of `ENUM_PREFIX` at the time the
done callback runs (a post-launch settings edit): the remote queries
are identical, but the enum written differs (`hashdb_strings_crc32`
versus `edited_crc32`) — the pipeline's written results are not
identical, so the configuration is not snapshotted at launch. -/
theorem C9_counterexample :
    (hash_lookup_pipeline c9LaunchCfg 26 c9Server
        "https://hashdb.openanalysis.net" "crc32" "hashdb_strings" false 0 c9Env []).query
      = (hash_lookup_pipeline c9LaunchCfg 26 c9Server
        "https://hashdb.openanalysis.net" "crc32" "edited" false 0 c9Env []).query ∧
    (hash_lookup_pipeline c9LaunchCfg 26 c9Server
        "https://hashdb.openanalysis.net" "crc32" "hashdb_strings" false 0 c9Env
        []).result.enumName = some "hashdb_strings_crc32" ∧
    (hash_lookup_pipeline c9LaunchCfg 26 c9Server
        "https://hashdb.openanalysis.net" "crc32" "edited" false 0 c9Env
        []).result.enumName = some "edited_crc32" ∧
    ((hash_lookup_pipeline c9LaunchCfg 26 c9Server
        "https://hashdb.openanalysis.net" "crc32" "hashdb_strings" false 0 c9Env
        []).result.enumName
      == (hash_lookup_pipeline c9LaunchCfg 26 c9Server
        "https://hashdb.openanalysis.net" "crc32" "edited" false 0 c9Env
        []).result.enumName) = false := by
  refine ⟨rfl, by decide, by decide, by decide⟩

/-- C9 (amended): the parameters of the initial lookup query (endpoint,
algorithm, hash value, XOR mask) are snapshotted at launch as worker
arguments — the query is identical across any two runs sharing a launch
configuration, whatever the configuration is edited to afterwards — but
the enum naming of the done handler is computed from the live globals
`ENUM_PREFIX` and `HASHDB_ALGORITHM` at callback time (and the
bulk-import sub-query likewise uses callback-time globals), so
post-launch configuration edits do affect the written results. -/
theorem C9_amended_snapshot :
    (∀ (launchCfg : Config) (hv : Nat) (server : HashQuery → StringsQueryResult)
       (u u' a a' b b' : String) (x x' : Bool) (y y' : Nat)
       (env env' : LookupCbEnv) (ms ms' : EnumMembers),
      (hash_lookup_pipeline launchCfg hv server u a b x y env ms).query
        = (hash_lookup_pipeline launchCfg hv server u' a' b' x' y' env' ms').query) ∧
    (∀ (u a b : String) (x : Bool) (y : Nat) (env : LookupCbEnv)
       (ms : EnumMembers) (hl : Option (List HashRecord)) (hv : Option Nat),
      (hash_lookup_done_handler u a b x y env ms hl hv).enumName = none ∨
      (hash_lookup_done_handler u a b x y env ms hl hv).enumName
        = some (generate_enum_name b a)) := by
  constructor
  · intro launchCfg hv server u u' a a' b b' x x' y y' env env' ms ms'
    rfl
  · intro u a b x y env ms hl hv
    rw [hash_lookup_done_handler.eq_def]
    repeat'
      first
        | exact Or.inl rfl
        | exact Or.inr rfl
        | split
        | dsimp only

/-- C10: in every match set successfully returned by the hash-lookup
query, a record marked as not an API symbol (`is_api` false) has all
NUL characters removed from its candidate string, and a record marked
as (or defaulting to) an API symbol is returned unmodified. -/
theorem C10_nul_stripping :
    ∀ (hashes out : List HashRecord),
      get_strings_from_hash_post hashes = some out →
      List.Forall₂ (fun rec outRec =>
        ((rec.stringObj.getD hsDefault).is_api.getD true = false →
          outRec = ⟨some { rec.stringObj.getD hsDefault with
            str := (rec.stringObj.getD hsDefault).str.map stripNulChars }⟩) ∧
        ((rec.stringObj.getD hsDefault).is_api.getD true = true → outRec = rec))
        hashes out := by
  intro hashes
  induction hashes with
  | nil =>
    intro out h
    rw [get_strings_from_hash_post] at h
    rw [← Option.some.inj h]
    exact List.Forall₂.nil
  | cons rec rest ih =>
    intro out h
    rw [get_strings_from_hash_post] at h
    rcases hp : process_hash_record rec with _ | r <;> rw [hp] at h
    · exact absurd h (by simp)
    rcases hr : get_strings_from_hash_post rest with _ | rs <;> rw [hr] at h
    · exact absurd h (by simp)
    rw [← Option.some.inj h]
    refine List.Forall₂.cons ?_ (ih rs hr)
    rcases rec with ⟨_ | so⟩
    · rw [process_hash_record] at hp
      have hr' : r = ⟨none⟩ := (Option.some.inj hp).symm
      subst hr'
      refine ⟨fun hfalse => ?_, fun _ => rfl⟩
      exact absurd hfalse (by simp [hsDefault])
    · rw [process_hash_record] at hp
      by_cases hapi : so.is_api.getD true = true
      · rw [if_pos hapi] at hp
        have hr' : r = ⟨some so⟩ := (Option.some.inj hp).symm
        subst hr'
        refine ⟨fun hfalse => ?_, fun _ => rfl⟩
        have : so.is_api.getD true = false := hfalse
        rw [hapi] at this
        exact Bool.noConfusion this
      · rw [if_neg hapi] at hp
        rcases hstr : so.str with _ | s <;> rw [hstr] at hp
        · exact absurd hp (by simp)
        · have hr' : r = ⟨some { so with str := some (stripNulChars s) }⟩ :=
            (Option.some.inj hp).symm
          subst hr'
          refine ⟨fun _ => ?_, fun htrue => ?_⟩
          · show _ = (⟨some { so with str := so.str.map stripNulChars }⟩ : HashRecord)
            rw [hstr]
            rfl
          · exact absurd htrue hapi

/-- C10 witness: a two-record match set — an API record with a NUL in
its `string` field and a non-API record with NULs in its candidate
string — is returned with the API record unmodified and the non-API
string stripped. -/
theorem C10_nul_stripping_witness :
    List.Forall₂ (fun rec outRec =>
      ((rec.stringObj.getD hsDefault).is_api.getD true = false →
        outRec = ⟨some { rec.stringObj.getD hsDefault with
          str := (rec.stringObj.getD hsDefault).str.map stripNulChars }⟩) ∧
      ((rec.stringObj.getD hsDefault).is_api.getD true = true → outRec = rec))
      [c10ApiRec, c10StrRec] [c10ApiRec, c10StrRecStripped] :=
  C10_nul_stripping [c10ApiRec, c10StrRec] [c10ApiRec, c10StrRecStripped] (by decide)

end HashDB
